import Mathlib

/-!
# Verification of the Simon-says game controller (src/simon.c)

Shallow embedding of the game logic of `simon.c`: the game constants, the
speed policy `getSpeed`, the blocking input loop `getButton`, the Welcome
polling loop, and the transition functions `countDown`, `playSequence`,
`checkSequence`, `errorMsg`, `congratsMsg`, together with the main-loop
dispatch `step`.  I/O (LCD drawing, LED driving, software delays) has no
effect on the game state and is dropped; the pacing of playback is recorded
as data (the delay count passed to `swDelay`) so that timing-policy claims
can be stated.  C `int` values are embedded as `Int`; the fixed 64-cell
sequence array `givenSeq` as a `List Int` of length 64, reads as
`List.getD` and writes as `List.set`.  The pseudo-random draw
`rand() % NUM_KEYS` and the touch-pad polls are passed in as explicit
environment data, one value per call site, in program order.
-/

namespace Simon

/-- `#define NUM_KEYS 5` -/
def NUM_KEYS : Int := 5

/-- `#define MAX_SEQ_LENGTH 64` -/
def MAX_SEQ_LENGTH : Int := 64

/-- Game state `#define WELCOME 0` -/
def WELCOME : Int := 0

/-- Game state `#define PLAYSEQ 1` -/
def PLAYSEQ : Int := 1

/-- Game state `#define CHECSEQ 2` -/
def CHECSEQ : Int := 2

/-- Game state `#define ERROR 3` -/
def ERROR : Int := 3

/-- Game state `#define CONGRATS 4` -/
def CONGRATS : Int := 4

/-- `#define NULL_BUTTON -1` -/
def NULL_BUTTON : Int := -1

/-- `#define X 0`, the designated start button. -/
def X : Int := 0

/-- `int getSpeed(int difficulty)`: the difficulty-to-delay policy.
Returns the `swDelay` loop count used to pace playback. -/
def getSpeed (difficulty : Int) : Int :=
  if difficulty < 13 then 2
  else if 13 ≤ difficulty ∧ difficulty < 26 then 1
  else 0

/-- The spec's Slow tier, realised in the code as `swDelay` count 2. -/
def SlowTier : Int := 2

/-- The spec's Medium tier, realised in the code as `swDelay` count 1. -/
def MediumTier : Int := 1

/-- The spec's Fast tier, realised in the code as `swDelay` count 0. -/
def FastTier : Int := 0

/-- One `TI_CAPT_Buttons` poll result, and the body of the matching `for`
loop inside `getButton`: `none` models a null `keypressed` (no key
touched); `some k` models a touched element, which sets
`buttonPressed = k` when it equals `address_list[k]` for `0 ≤ k < 5` and
leaves `buttonPressed == NULL_BUTTON` otherwise. -/
def pollMatch (p : Option Int) : Int :=
  match p with
  | none => NULL_BUTTON
  | some k => if 0 ≤ k ∧ k < NUM_KEYS then k else NULL_BUTTON

/-- `int getButton(void)`: the `do { ... } while (buttonPressed ==
NULL_BUTTON)` loop, run over a finite stream of poll results; `none` means
the stream was exhausted with the loop still blocked. -/
def getButton : List (Option Int) → Option Int
  | [] => none
  | p :: ps =>
    if pollMatch p = NULL_BUTTON then getButton ps else some (pollMatch p)

/-- The Welcome-state polling loop of `main`:
`do { button = getButton(); } while ((button == NULL_BUTTON) || (button != X));`
run over the stream of successive `getButton` results; `none` means the
stream was exhausted with the loop still blocked. -/
def welcomeLoop : List Int → Option Int
  | [] => none
  | b :: bs => if b = NULL_BUTTON ∨ b ≠ X then welcomeLoop bs else some b

/-- `void countDown(int *state)`: plays the fixed 3-2-1-Go renderings and
then assigns `*state = PLAYSEQ`, whatever the prior state value was. -/
def countDown (_state : Int) : Int := PLAYSEQ

/-- Result of one `playSequence` call: the updated array, difficulty and
state, the playback trace (the `(sequence[playLED], getSpeed(level))`
pairs driven to the LEDs in loop order), and the array index of the
`sequence[level] = randPad` store. -/
structure PlayResult where
  seq : List Int
  diff : Int
  state : Int
  playback : List (Int × Int)
  writeIndex : Nat
deriving DecidableEq

/-- `void playSequence(int *sequence, int *diff, int *state)`: draws one
pad (`randPad`, the value of `rand() % NUM_KEYS` at this call), stores it
at `sequence[level]` where `level = *diff`, replays `sequence[0..level]`
paced by `getSpeed(level)`, and sets `*state = CHECSEQ`. -/
def playSequence (seq : List Int) (diff : Int) (randPad : Int) : PlayResult :=
  let level := diff
  let seq2 := seq.set level.toNat randPad
  { seq := seq2
    diff := diff
    state := CHECSEQ
    playback := (List.range (level + 1).toNat).map
      (fun i => (seq2.getD i 0, getSpeed level))
    writeIndex := level.toNat }

/-- The `for (currentButton = 0; currentButton <= level; ++currentButton)`
loop of `checkSequence`, with `n` remaining iterations and loop counter
`cb`: each iteration acquires one input (`inputs cb`, the result of the
`getButton()` call of that iteration) and compares it with
`sequence[currentButton]`; a mismatch breaks out with `isSeqCorrect = 0`.
Returns the number of inputs acquired and the final `isSeqCorrect`. -/
def checkRun (seq : List Int) (inputs : Nat → Int) : Nat → Nat → Nat × Bool
  | 0, cb => (cb, true)
  | n + 1, cb =>
    if inputs cb ≠ seq.getD cb 0 then (cb + 1, false)
    else checkRun seq inputs n (cb + 1)

/-- Result of one `checkSequence` call: how many inputs were acquired, the
updated difficulty and state, and the (never written) array. -/
structure CheckResult where
  consumed : Nat
  diff : Int
  state : Int
  seq : List Int
deriving DecidableEq

/-- `void checkSequence(int *sequence, int *diff, int *state)`: compares
`level + 1` player inputs (`level = *diff`) against `sequence[0..level]`
in order, stopping at the first mismatch; on full match it increases the
difficulty and returns to `PLAYSEQ` when `level < MAX_SEQ_LENGTH`, else
goes to `CONGRATS`; on a mismatch it goes to `ERROR`. -/
def checkSequence (seq : List Int) (diff : Int) (inputs : Nat → Int) : CheckResult :=
  let level := diff
  let r := checkRun seq inputs (level + 1).toNat 0
  if r.2 = true then
    if level < MAX_SEQ_LENGTH then
      { consumed := r.1, diff := level + 1, state := PLAYSEQ, seq := seq }
    else
      { consumed := r.1, diff := level, state := CONGRATS, seq := seq }
  else
    { consumed := r.1, diff := level, state := ERROR, seq := seq }

/-- The whole mutable state of `main`: the `state`, `givenSeq` and `diff`
locals (the `button` local is consumed inside the Welcome loop). -/
structure Game where
  state : Int
  seq : List Int
  diff : Int
deriving DecidableEq

/-- The initial values in `main`: `state = WELCOME`,
`int givenSeq[MAX_SEQ_LENGTH] = {0}`, `diff = 0`. -/
def initGame : Game :=
  { state := WELCOME, seq := List.replicate 64 0, diff := 0 }

/-- `void errorMsg(int *state)`: renders the loss message, delays, and
assigns `*state = WELCOME`.  It receives only `&state`, so the `Game`-level
effect is exactly this. -/
def errorMsg (g : Game) : Game := { g with state := WELCOME }

/-- `void congratsMsg(int *state)`: renders the win message, delays, and
assigns `*state = WELCOME`.  It receives only `&state`. -/
def congratsMsg (g : Game) : Game := { g with state := WELCOME }

/-- `countDown` at the `Game` level: it receives only `&state`. -/
def countDownG (g : Game) : Game := { g with state := countDown g.state }

/-- `playSequence` at the `Game` level. -/
def playSequenceG (g : Game) (randPad : Int) : Game :=
  let r := playSequence g.seq g.diff randPad
  { state := r.state, seq := r.seq, diff := r.diff }

/-- `checkSequence` at the `Game` level. -/
def checkSequenceG (g : Game) (inputs : Nat → Int) : Game :=
  let r := checkSequence g.seq g.diff inputs
  { state := r.state, seq := r.seq, diff := r.diff }

/-- The environment data consumed by one iteration of the `while (1)`
loop of `main`: the `getButton` results seen by the Welcome loop, the
`rand() % NUM_KEYS` value of a `playSequence` call, and the `getButton`
results seen by a `checkSequence` call. -/
structure Env where
  welcomeButtons : List Int
  randPad : Int
  checkInputs : Nat → Int

/-- One iteration of the `while (1)` loop of `main`: dispatch on `state`.
A Welcome loop that never sees the start button blocks forever; that is
modelled as the iteration returning the state unchanged. -/
def step (g : Game) (env : Env) : Game :=
  if g.state = WELCOME then
    match welcomeLoop env.welcomeButtons with
    | some _ => countDownG g
    | none => g
  else if g.state = PLAYSEQ then playSequenceG g env.randPad
  else if g.state = CHECSEQ then checkSequenceG g env.checkInputs
  else if g.state = ERROR then errorMsg g
  else if g.state = CONGRATS then congratsMsg g
  else g

/-- `N` consecutive fully-correct rounds: each round is a `playSequence`
step drawing the next pad of `pads`, followed by a `checkSequence` step in
which the player inputs exactly the stored symbols. -/
def playRounds : Game → List Int → Game
  | g, [] => g
  | g, p :: ps =>
    let g1 := playSequenceG g p
    let g2 := checkSequenceG g1 (fun i => g1.seq.getD i 0)
    playRounds g2 ps

/-- Write the values of `pads` into consecutive cells of `seq` starting at
index `k` (the cumulative effect of the `sequence[level] = randPad` stores
of consecutive rounds). -/
def writeFrom : List Int → Nat → List Int → List Int
  | seq, _, [] => seq
  | seq, k, p :: ps => writeFrom (seq.set k p) (k + 1) ps

/-- The five values the `state` variable may hold. -/
def isGameState (s : Int) : Prop :=
  s = WELCOME ∨ s = PLAYSEQ ∨ s = CHECSEQ ∨ s = ERROR ∨ s = CONGRATS

instance (s : Int) : Decidable (isGameState s) := by
  unfold isGameState; infer_instance

end Simon

namespace Simon

/-- Helper: `checkSequence` always leaves the state tag at one of
`PLAYSEQ`, `CONGRATS`, `ERROR`. -/
theorem checkSequence_state_cases (seq : List Int) (diff : Int) (inputs : Nat → Int) :
    (checkSequence seq diff inputs).state = PLAYSEQ ∨
    (checkSequence seq diff inputs).state = CONGRATS ∨
    (checkSequence seq diff inputs).state = ERROR := by
  unfold checkSequence
  dsimp only
  split
  · split
    · exact Or.inl rfl
    · exact Or.inr (Or.inl rfl)
  · exact Or.inr (Or.inr rfl)

/-- Helper: the Welcome loop stays blocked exactly when the stream of
`getButton` results contains no `X`. -/
theorem welcomeLoop_eq_none (bs : List Int) : welcomeLoop bs = none ↔ X ∉ bs := by
  induction bs with
  | nil => simp [welcomeLoop]
  | cons b bs ih =>
    unfold welcomeLoop
    by_cases hb : b = NULL_BUTTON ∨ b ≠ X
    · rw [if_pos hb, ih]
      have hbx : ¬ X = b := by
        rcases hb with hb | hb
        · rw [hb]; decide
        · exact fun h => hb h.symm
      simp [List.mem_cons, hbx]
    · rw [if_neg hb]
      push_neg at hb
      simp [List.mem_cons, hb.2]

/-- Helper: the Welcome loop can only exit with the start button. -/
theorem welcomeLoop_some_eq (bs : List Int) (b : Int) (h : welcomeLoop bs = some b) :
    b = X := by
  induction bs with
  | nil => simp [welcomeLoop] at h
  | cons c cs ih =>
    unfold welcomeLoop at h
    by_cases hc : c = NULL_BUTTON ∨ c ≠ X
    · rw [if_pos hc] at h; exact ih h
    · rw [if_neg hc] at h
      push_neg at hc
      injection h with h
      rw [← h]; exact hc.2

/-- Helper: when the stream contains the start button, the Welcome loop
exits with it. -/
theorem welcomeLoop_of_mem (bs : List Int) (h : X ∈ bs) : welcomeLoop bs = some X := by
  cases hw : welcomeLoop bs with
  | none => exact absurd h ((welcomeLoop_eq_none bs).mp hw)
  | some b => rw [welcomeLoop_some_eq bs b hw]

/-- Helper: each single poll either matches no pad or yields a pad index
in `0 ≤ k < NUM_KEYS`. -/
theorem pollMatch_cases (p : Option Int) :
    pollMatch p = NULL_BUTTON ∨ (0 ≤ pollMatch p ∧ pollMatch p < NUM_KEYS) := by
  cases p with
  | none => exact Or.inl rfl
  | some k =>
    simp only [pollMatch]
    by_cases h : 0 ≤ k ∧ k < NUM_KEYS
    · rw [if_pos h]; exact Or.inr h
    · rw [if_neg h]; exact Or.inl rfl

/-- Helper: if all compared positions match, the check loop runs all its
iterations, acquiring one input per iteration, and reports success. -/
theorem checkRun_all_match (seq : List Int) (inputs : Nat → Int) :
    ∀ n cb : Nat, (∀ j, cb ≤ j → j < cb + n → inputs j = seq.getD j 0) →
      checkRun seq inputs n cb = (cb + n, true) := by
  intro n
  induction n with
  | zero => intro cb h; simp [checkRun]
  | succ n ih =>
    intro cb h
    simp only [checkRun]
    have heq : inputs cb = seq.getD cb 0 := h cb (le_refl cb) (by omega)
    rw [if_neg (not_not.mpr heq)]
    rw [ih (cb + 1) (fun j hj1 hj2 => h j (by omega) (by omega))]
    congr 1
    omega

/-- Helper: the first mismatch, at position `i`, breaks the check loop
after acquiring exactly `i + 1` inputs. -/
theorem checkRun_first_mismatch (seq : List Int) (inputs : Nat → Int) :
    ∀ n cb i : Nat, cb ≤ i → i < cb + n →
      (∀ j, cb ≤ j → j < i → inputs j = seq.getD j 0) →
      inputs i ≠ seq.getD i 0 →
      checkRun seq inputs n cb = (i + 1, false) := by
  intro n
  induction n with
  | zero => intro cb i h1 h2 _ _; omega
  | succ n ih =>
    intro cb i h1 h2 hpre hmis
    simp only [checkRun]
    by_cases hcb : cb = i
    · subst hcb
      rw [if_pos hmis]
    · have hlt : cb < i := by omega
      have heq : inputs cb = seq.getD cb 0 := hpre cb (le_refl cb) hlt
      rw [if_neg (not_not.mpr heq)]
      exact ih (cb + 1) i (by omega) (by omega)
        (fun j hj1 hj2 => hpre j (by omega) hj2) hmis

/-- Helper: a fully-correct check at difficulty `k < MAX_SEQ_LENGTH`
consumes `k + 1` inputs, increments the difficulty and returns to
`PLAYSEQ`. -/
theorem checkSequence_all_correct (seq : List Int) (k : Nat) (inputs : Nat → Int)
    (hk : (k : Int) < MAX_SEQ_LENGTH)
    (h : ∀ j, j ≤ k → inputs j = seq.getD j 0) :
    checkSequence seq (k : Int) inputs =
      { consumed := k + 1, diff := (k : Int) + 1, state := PLAYSEQ, seq := seq } := by
  unfold checkSequence
  dsimp only
  have hiters : ((k : Int) + 1).toNat = k + 1 := by omega
  rw [hiters, checkRun_all_match seq inputs (k + 1) 0 (fun j _ hj => h j (by omega)),
    Nat.zero_add]
  dsimp only
  rw [if_pos rfl, if_pos hk]

/-- Helper: one fully-correct round from difficulty `k` stores the drawn
pad at cell `k` and moves to difficulty `k + 1`, still in `PLAYSEQ`. -/
theorem playRounds_cons (seq : List Int) (k : Nat) (p : Int) (ps : List Int)
    (hk : (k : Int) < MAX_SEQ_LENGTH) :
    playRounds { state := PLAYSEQ, seq := seq, diff := (k : Int) } (p :: ps) =
      playRounds { state := PLAYSEQ, seq := seq.set k p, diff := ((k + 1 : Nat) : Int) } ps := by
  simp only [playRounds]
  congr 1
  have hplay : playSequenceG { state := PLAYSEQ, seq := seq, diff := (k : Int) } p =
      { state := CHECSEQ, seq := seq.set k p, diff := (k : Int) } := rfl
  rw [hplay]
  unfold checkSequenceG
  dsimp only
  rw [checkSequence_all_correct (seq.set k p) k _ hk (fun j _ => rfl)]
  simp only [Game.mk.injEq]
  exact ⟨trivial, trivial, by omega⟩

/-- Helper: `playRounds` in closed form: starting in `PLAYSEQ` at
difficulty `k`, playing the pads of `pads` writes them into consecutive
cells from `k` and raises the difficulty by `pads.length`. -/
theorem playRounds_closed (pads : List Int) : ∀ (seq : List Int) (k : Nat),
    seq.length = 64 → k + pads.length ≤ 64 →
    playRounds { state := PLAYSEQ, seq := seq, diff := (k : Int) } pads =
      { state := PLAYSEQ, seq := writeFrom seq k pads, diff := ((k + pads.length : Nat) : Int) } := by
  induction pads with
  | nil =>
    intro seq k h1 h2
    simp [playRounds, writeFrom]
  | cons p ps ih =>
    intro seq k h1 h2
    simp only [List.length_cons] at h2
    rw [playRounds_cons seq k p ps (by unfold MAX_SEQ_LENGTH; omega)]
    rw [ih (seq.set k p) (k + 1) (by rw [List.length_set]; exact h1) (by omega)]
    simp only [Game.mk.injEq, writeFrom, List.length_cons]
    exact ⟨trivial, trivial, by omega⟩

/-- Helper: `writeFrom` preserves the array length. -/
theorem writeFrom_length (pads : List Int) : ∀ (seq : List Int) (k : Nat),
    (writeFrom seq k pads).length = seq.length := by
  induction pads with
  | nil => intro seq k; rfl
  | cons p ps ih =>
    intro seq k
    simp only [writeFrom]
    rw [ih, List.length_set]

/-- Helper: `writeFrom` leaves the cells below `k` unchanged. -/
theorem writeFrom_getElem?_lt (pads : List Int) : ∀ (seq : List Int) (k j : Nat),
    j < k → (writeFrom seq k pads)[j]? = seq[j]? := by
  induction pads with
  | nil => intro seq k j _; rfl
  | cons p ps ih =>
    intro seq k j h
    simp only [writeFrom]
    rw [ih (seq.set k p) (k + 1) j (by omega), List.getElem?_set_ne (by omega)]

/-- Helper: within the written window, `writeFrom` stores exactly the
pads, in order. -/
theorem writeFrom_getElem?_mem (pads : List Int) : ∀ (seq : List Int) (k j : Nat),
    k + pads.length ≤ seq.length → k ≤ j → j < k + pads.length →
    (writeFrom seq k pads)[j]? = pads[j - k]? := by
  induction pads with
  | nil =>
    intro seq k j _ h2 h3
    simp only [List.length_nil] at h3
    omega
  | cons p ps ih =>
    intro seq k j h1 h2 h3
    simp only [List.length_cons] at h1 h3
    simp only [writeFrom]
    by_cases hj : j = k
    · subst hj
      rw [writeFrom_getElem?_lt ps (seq.set j p) (j + 1) j (by omega)]
      rw [List.getElem?_set_self (by omega)]
      rw [Nat.sub_self]
      exact List.getElem?_cons_zero.symm
    · rw [ih (seq.set k p) (k + 1) j (by rw [List.length_set]; omega) (by omega) (by omega)]
      have hsub : j - k = (j - (k + 1)) + 1 := by omega
      rw [hsub, List.getElem?_cons_succ]

/-- Helper: taking the written prefix back out of the array returns the
pads themselves. -/
theorem writeFrom_take (pads seq : List Int) (h : pads.length ≤ seq.length) :
    (writeFrom seq 0 pads).take pads.length = pads := by
  apply List.ext_getElem?
  intro n
  rw [List.getElem?_take]
  by_cases hn : n < pads.length
  · rw [if_pos hn]
    rw [writeFrom_getElem?_mem pads seq 0 n (by omega) (Nat.zero_le n) (by omega)]
    rw [Nat.sub_zero]
  · rw [if_neg hn]
    exact (List.getElem?_eq_none (by omega)).symm

/-- Helper: any value `getButton` returns is a pad index in range. -/
theorem getButton_some_valid (polls : List (Option Int)) (b : Int)
    (h : getButton polls = some b) : 0 ≤ b ∧ b < NUM_KEYS := by
  induction polls with
  | nil => simp [getButton] at h
  | cons p ps ih =>
    unfold getButton at h
    by_cases hp : pollMatch p = NULL_BUTTON
    · rw [if_pos hp] at h; exact ih h
    · rw [if_neg hp] at h
      injection h with h
      rcases pollMatch_cases p with h1 | h1
      · exact absurd h1 hp
      · rw [← h]; exact h1

end Simon

namespace Simon

/-- C4: `getSpeed` is a pure total function of difficulty with exactly the
tiers of the spec: for every non-negative difficulty `d`, `d ∈ [0,13)` gives
the Slow tier, `d ∈ [13,26)` the Medium tier, and `d ≥ 26` the Fast tier;
the resulting delay is monotonically non-increasing in `d`, and it changes
value exactly at the two breakpoints `d = 13` and `d = 26`. -/
theorem getSpeed_tiers (d : Int) (hd : 0 ≤ d) :
    (d < 13 → getSpeed d = SlowTier) ∧
    (13 ≤ d ∧ d < 26 → getSpeed d = MediumTier) ∧
    (26 ≤ d → getSpeed d = FastTier) ∧
    (∀ e : Int, d ≤ e → getSpeed e ≤ getSpeed d) ∧
    (getSpeed (d + 1) ≠ getSpeed d ↔ d + 1 = 13 ∨ d + 1 = 26) := by
  unfold getSpeed SlowTier MediumTier FastTier
  refine ⟨?_, ?_, ?_, ?_, ?_⟩
  · intro h; simp [h]
  · intro h; rcases h with ⟨h1, h2⟩
    rw [if_neg (by omega), if_pos ⟨h1, h2⟩]
  · intro h
    rw [if_neg (by omega), if_neg (by omega)]
  · intro e he
    by_cases h1 : e < 13
    · rw [if_pos h1, if_pos (by omega)]
    · by_cases h2 : e < 26
      · rw [if_neg h1, if_pos ⟨by omega, h2⟩]
        by_cases h3 : d < 13
        · rw [if_pos h3]; omega
        · rw [if_neg h3, if_pos ⟨by omega, by omega⟩]
      · rw [if_neg h1, if_neg (by omega)]
        by_cases h3 : d < 13
        · rw [if_pos h3]; omega
        · by_cases h4 : d < 26
          · rw [if_neg h3, if_pos ⟨by omega, h4⟩]; omega
          · rw [if_neg h3, if_neg (by omega)]
  · constructor
    · intro hne
      by_contra hout
      push_neg at hout
      rcases hout with ⟨h13, h26⟩
      apply hne
      by_cases h1 : d < 12
      · rw [if_pos (by omega), if_pos (by omega)]
      · by_cases h2 : d < 25
        · rw [if_neg (by omega), if_pos ⟨by omega, by omega⟩,
            if_neg (by omega), if_pos ⟨by omega, by omega⟩]
        · rw [if_neg (by omega), if_neg (by omega),
            if_neg (by omega), if_neg (by omega)]
    · intro h
      rcases h with h | h
      · rw [if_neg (by omega), if_pos ⟨by omega, by omega⟩, if_pos (by omega)]
        omega
      · rw [if_neg (by omega), if_neg (by omega),
          if_neg (by omega), if_pos ⟨by omega, by omega⟩]
        omega

/-- Witness for C4: the tier theorem instantiated at difficulty 5. -/
theorem getSpeed_tiers_witness :
    (0 ≤ (5 : Int)) ∧
    (((5 : Int) < 13 → getSpeed 5 = SlowTier) ∧
    (13 ≤ (5 : Int) ∧ (5 : Int) < 26 → getSpeed 5 = MediumTier) ∧
    (26 ≤ (5 : Int) → getSpeed 5 = FastTier) ∧
    (∀ e : Int, 5 ≤ e → getSpeed e ≤ getSpeed 5) ∧
    (getSpeed (5 + 1) ≠ getSpeed 5 ↔ (5 : Int) + 1 = 13 ∨ (5 : Int) + 1 = 26)) :=
  ⟨by norm_num, getSpeed_tiers 5 (by norm_num)⟩

/-- C2 fails on the code: `errorMsg` and `congratsMsg` assign only
`*state = WELCOME`; with prior difficulty 5 and a non-zero stored
sequence, both leave the difficulty at 5 ≠ 0 and the sequence intact. -/
theorem errorMsg_congratsMsg_no_reset :
    (errorMsg { state := ERROR, seq := List.replicate 64 1, diff := 5 }).diff = 5 ∧
    (errorMsg { state := ERROR, seq := List.replicate 64 1, diff := 5 }).seq =
      List.replicate 64 1 ∧
    (errorMsg { state := ERROR, seq := List.replicate 64 1, diff := 5 }).state = WELCOME ∧
    (congratsMsg { state := CONGRATS, seq := List.replicate 64 1, diff := 5 }).diff = 5 ∧
    (congratsMsg { state := CONGRATS, seq := List.replicate 64 1, diff := 5 }).seq =
      List.replicate 64 1 ∧
    ¬ (5 : Int) = 0 :=
  ⟨rfl, rfl, rfl, rfl, rfl, by decide⟩

/-- C9: frame property of the non-generating transitions: `checkSequence`
returns the sequence array unchanged (it only reads it, mutating only the
difficulty and the state tag), and `countDown`, `errorMsg` and
`congratsMsg` leave both the difficulty and the sequence array unchanged,
mutating only the state tag. -/
theorem frame_non_generating :
    (∀ (seq : List Int) (diff : Int) (inputs : Nat → Int),
      (checkSequence seq diff inputs).seq = seq) ∧
    (∀ g : Game, (countDownG g).seq = g.seq ∧ (countDownG g).diff = g.diff) ∧
    (∀ g : Game, (errorMsg g).seq = g.seq ∧ (errorMsg g).diff = g.diff) ∧
    (∀ g : Game, (congratsMsg g).seq = g.seq ∧ (congratsMsg g).diff = g.diff) := by
  refine ⟨?_, fun g => ⟨rfl, rfl⟩, fun g => ⟨rfl, rfl⟩, fun g => ⟨rfl, rfl⟩⟩
  intro seq diff inputs
  unfold checkSequence
  dsimp only
  split <;> [skip; rfl]
  split <;> rfl

/-- C10: the state variable starts as `WELCOME`; every transition function
returns one of the five defined values `WELCOME`, `PLAYSEQ`, `CHECSEQ`,
`ERROR`, `CONGRATS`; one main-loop iteration preserves this; and from
`WELCOME` the stored state moves directly to `PLAYSEQ` (or stays blocked),
so no Countdown value is ever stored. -/
theorem state_tag_invariant :
    initGame.state = WELCOME ∧
    (∀ s : Int, isGameState (countDown s)) ∧
    (∀ (seq : List Int) (diff randPad : Int),
      isGameState (playSequence seq diff randPad).state) ∧
    (∀ (seq : List Int) (diff : Int) (inputs : Nat → Int),
      isGameState (checkSequence seq diff inputs).state) ∧
    (∀ g : Game, isGameState (errorMsg g).state ∧ isGameState (congratsMsg g).state) ∧
    (∀ (g : Game) (env : Env), isGameState g.state → isGameState (step g env).state) ∧
    (∀ (g : Game) (env : Env), g.state = WELCOME →
      (step g env).state = WELCOME ∨ (step g env).state = PLAYSEQ) := by
  refine ⟨rfl, fun s => Or.inr (Or.inl rfl), fun seq diff r => Or.inr (Or.inr (Or.inl rfl)),
    ?_, fun g => ⟨Or.inl rfl, Or.inl rfl⟩, ?_, ?_⟩
  · intro seq diff inputs
    rcases checkSequence_state_cases seq diff inputs with h | h | h
    · exact Or.inr (Or.inl h)
    · exact Or.inr (Or.inr (Or.inr (Or.inr h)))
    · exact Or.inr (Or.inr (Or.inr (Or.inl h)))
  · intro g env hg
    unfold step
    by_cases h0 : g.state = WELCOME
    · rw [if_pos h0]
      cases welcomeLoop env.welcomeButtons with
      | some b => exact Or.inr (Or.inl rfl)
      | none => exact hg
    · rw [if_neg h0]
      by_cases h1 : g.state = PLAYSEQ
      · rw [if_pos h1]; exact Or.inr (Or.inr (Or.inl rfl))
      · rw [if_neg h1]
        by_cases h2 : g.state = CHECSEQ
        · rw [if_pos h2]
          rcases checkSequence_state_cases g.seq g.diff env.checkInputs with h | h | h
          · exact Or.inr (Or.inl h)
          · exact Or.inr (Or.inr (Or.inr (Or.inr h)))
          · exact Or.inr (Or.inr (Or.inr (Or.inl h)))
        · rw [if_neg h2]
          by_cases h3 : g.state = ERROR
          · rw [if_pos h3]; exact Or.inl rfl
          · rw [if_neg h3]
            by_cases h4 : g.state = CONGRATS
            · rw [if_pos h4]; exact Or.inl rfl
            · rw [if_neg h4]; exact hg
  · intro g env hg
    unfold step
    rw [if_pos hg]
    cases welcomeLoop env.welcomeButtons with
    | some b => exact Or.inr rfl
    | none => exact Or.inl hg

/-- Witness for C10: the hypothesis-bearing conjuncts applied at the
initial game and concrete environments. -/
theorem state_tag_invariant_witness :
    isGameState (step initGame
      { welcomeButtons := [0], randPad := 0, checkInputs := fun _ => 0 }).state ∧
    ((step initGame
      { welcomeButtons := [3], randPad := 0, checkInputs := fun _ => 0 }).state = WELCOME ∨
     (step initGame
      { welcomeButtons := [3], randPad := 0, checkInputs := fun _ => 0 }).state = PLAYSEQ) :=
  ⟨state_tag_invariant.2.2.2.2.2.1 initGame
      { welcomeButtons := [0], randPad := 0, checkInputs := fun _ => 0 } (Or.inl rfl),
   state_tag_invariant.2.2.2.2.2.2 initGame
      { welcomeButtons := [3], randPad := 0, checkInputs := fun _ => 0 } rfl⟩

/-- C7: in the Welcome state the machine leaves only on the designated
start input `X`: the polling loop exits exactly when the stream of
`getButton` results contains `X`, it can only exit with `X`, a stream
without `X` causes no state change, and a stream with `X` moves the stored
state (through the countdown) to `PLAYSEQ`. -/
theorem welcome_only_start_input :
    (∀ bs : List Int, welcomeLoop bs = none ↔ X ∉ bs) ∧
    (∀ bs : List Int, X ∈ bs → welcomeLoop bs = some X) ∧
    (∀ (bs : List Int) (b : Int), welcomeLoop bs = some b → b = X) ∧
    (∀ (g : Game) (env : Env), g.state = WELCOME → X ∉ env.welcomeButtons →
      step g env = g) ∧
    (∀ (g : Game) (env : Env), g.state = WELCOME → X ∈ env.welcomeButtons →
      (step g env).state = PLAYSEQ) := by
  refine ⟨welcomeLoop_eq_none, welcomeLoop_of_mem, welcomeLoop_some_eq, ?_, ?_⟩
  · intro g env hg hx
    unfold step
    rw [if_pos hg, (welcomeLoop_eq_none env.welcomeButtons).mpr hx]
  · intro g env hg hx
    unfold step
    rw [if_pos hg, welcomeLoop_of_mem env.welcomeButtons hx]
    rfl

/-- Witness for C7: a stream `[2,0]` (a non-start press then the start
press) exits with `X` and moves the initial game to `PLAYSEQ`; a stream
`[2,3]` without the start press leaves the game unchanged. -/
theorem welcome_only_start_input_witness :
    (X ∈ ([2, 0] : List Int) ∧ welcomeLoop [2, 0] = some X) ∧
    (X ∉ ([2, 3] : List Int) ∧
      step initGame { welcomeButtons := [2, 3], randPad := 0, checkInputs := fun _ => 0 }
        = initGame) ∧
    ((step initGame { welcomeButtons := [2, 0], randPad := 0, checkInputs := fun _ => 0 }).state
        = PLAYSEQ) :=
  ⟨⟨by decide, welcome_only_start_input.2.1 [2, 0] (by decide)⟩,
   ⟨by decide, welcome_only_start_input.2.2.2.1 initGame
      { welcomeButtons := [2, 3], randPad := 0, checkInputs := fun _ => 0 } rfl (by decide)⟩,
   welcome_only_start_input.2.2.2.2 initGame
      { welcomeButtons := [2, 0], randPad := 0, checkInputs := fun _ => 0 } rfl (by decide)⟩

/-- C8: `getButton` never yields `NULL_BUTTON` to its callers: any value
it returns is a pad index with `0 ≤ b < NUM_KEYS` (so never
`NULL_BUTTON`), and whenever some poll in the stream is a valid pad press
the loop does return such an index. -/
theorem getButton_never_null :
    (∀ (polls : List (Option Int)) (b : Int), getButton polls = some b →
      0 ≤ b ∧ b < NUM_KEYS ∧ b ≠ NULL_BUTTON) ∧
    (∀ polls : List (Option Int), (∃ p ∈ polls, pollMatch p ≠ NULL_BUTTON) →
      ∃ b, getButton polls = some b ∧ 0 ≤ b ∧ b < NUM_KEYS ∧ b ≠ NULL_BUTTON) := by
  have valid : ∀ (polls : List (Option Int)) (b : Int), getButton polls = some b →
      0 ≤ b ∧ b < NUM_KEYS ∧ b ≠ NULL_BUTTON := by
    intro polls b h
    rcases getButton_some_valid polls b h with ⟨h1, h2⟩
    refine ⟨h1, h2, ?_⟩
    unfold NULL_BUTTON
    omega
  refine ⟨valid, ?_⟩
  intro polls hex
  induction polls with
  | nil => simp at hex
  | cons p ps ih =>
    by_cases hp : pollMatch p = NULL_BUTTON
    · have hex' : ∃ q ∈ ps, pollMatch q ≠ NULL_BUTTON := by
        rcases hex with ⟨q, hq, hqn⟩
        rcases List.mem_cons.mp hq with h1 | h1
        · exact absurd hp (h1 ▸ hqn)
        · exact ⟨q, h1, hqn⟩
      rcases ih hex' with ⟨b, hb, hbv⟩
      refine ⟨b, ?_, hbv⟩
      unfold getButton
      rw [if_pos hp]
      exact hb
    · refine ⟨pollMatch p, ?_, ?_⟩
      · unfold getButton
        rw [if_neg hp]
      · rcases pollMatch_cases p with h1 | h1
        · exact absurd h1 hp
        · exact ⟨h1.1, h1.2, by unfold NULL_BUTTON; omega⟩

/-- Witness for C8: a stream with a null poll, a non-pad element and a
valid press of pad 2 returns pad 2. -/
theorem getButton_never_null_witness :
    (∃ p ∈ ([none, some 7, some 2] : List (Option Int)), pollMatch p ≠ NULL_BUTTON) ∧
    (∃ b, getButton [none, some 7, some 2] = some b ∧
      0 ≤ b ∧ b < NUM_KEYS ∧ b ≠ NULL_BUTTON) :=
  ⟨by decide, getButton_never_null.2 [none, some 7, some 2] (by decide)⟩

/-- C3: comparisons in `checkSequence` run strictly in order from position
0 and the first mismatch short-circuits: if the inputs match the stored
sequence before position `i`, mismatch at `i`, and `i ≤ diff`, then the
result is the `ERROR` state with exactly `i + 1` inputs acquired (so no
input is requested for any position after `i`) and the difficulty not
incremented. -/
theorem checkSequence_short_circuit (seq : List Int) (diff : Int) (inputs : Nat → Int)
    (i : Nat) (hd : 0 ≤ diff) (hi : (i : Int) ≤ diff)
    (hpre : ∀ j, j < i → inputs j = seq.getD j 0)
    (hmis : inputs i ≠ seq.getD i 0) :
    checkSequence seq diff inputs =
      { consumed := i + 1, diff := diff, state := ERROR, seq := seq } := by
  unfold checkSequence
  dsimp only
  rw [checkRun_first_mismatch seq inputs (diff + 1).toNat 0 i (Nat.zero_le i)
    (by omega) (fun j _ hj => hpre j hj) hmis]
  simp

/-- Witness for C3, the spec's own example shape: stored `[0,1,2]`, player
inputs `0` then `7 ≠ 1`: the machine errors out after 2 inputs. -/
theorem checkSequence_short_circuit_witness :
    ((0 : Int) ≤ 2) ∧ (((1 : Nat) : Int) ≤ 2) ∧
    (∀ j, j < 1 →
      (fun n : Nat => if n = 1 then (7 : Int) else (n : Int)) j =
        ([0, 1, 2] : List Int).getD j 0) ∧
    ((fun n : Nat => if n = 1 then (7 : Int) else (n : Int)) 1 ≠
      ([0, 1, 2] : List Int).getD 1 0) ∧
    checkSequence [0, 1, 2] 2 (fun n : Nat => if n = 1 then (7 : Int) else (n : Int)) =
      { consumed := 2, diff := 2, state := ERROR, seq := [0, 1, 2] } :=
  ⟨by norm_num, by norm_num, by decide, by decide,
    checkSequence_short_circuit [0, 1, 2] 2
      (fun n : Nat => if n = 1 then (7 : Int) else (n : Int)) 1
      (by norm_num) (by norm_num) (by decide) (by decide)⟩

/-- C1 fails on the code: the boundary test in `checkSequence` is
`level < MAX_SEQ_LENGTH` instead of `level + 1 < MAX_SEQ_LENGTH`, so a
fully-correct round at difficulty 63 sets the difficulty to 64 and goes
back to `PLAYSEQ` (the claim requires `CONGRATS` there, since
`63 + 1 < 64` fails), and the next `playSequence` then stores at array
index 64 = `MAX_SEQ_LENGTH`, the out-of-bounds cell. -/
theorem capacity_boundary_code_bug :
    checkSequence (List.replicate 64 0) 63 (fun _ => 0) =
      { consumed := 64, diff := 64, state := PLAYSEQ, seq := List.replicate 64 0 } ∧
    ¬ ((63 : Int) + 1 < MAX_SEQ_LENGTH) ∧
    (playSequence (List.replicate 64 0) 64 0).writeIndex = MAX_SEQ_LENGTH.toNat := by
  refine ⟨by decide, by decide, by decide⟩

/-- C5: `playSequence` draws exactly one symbol, stores it at array index
`diff`, leaves every other cell unchanged, then plays back the stored
sequence from position 0 to `diff` inclusive in order, each played symbol
paced by `getSpeed diff`; the state is unconditionally `CHECSEQ` afterwards
and the difficulty is unchanged. -/
theorem playSequence_draws_stores_plays (seq : List Int) (diff randPad : Int)
    (hd : 0 ≤ diff) (hcap : diff < MAX_SEQ_LENGTH) (hlen : seq.length = 64) :
    (playSequence seq diff randPad).writeIndex = diff.toNat ∧
    (playSequence seq diff randPad).seq = seq.set diff.toNat randPad ∧
    (playSequence seq diff randPad).seq.getD diff.toNat 0 = randPad ∧
    (∀ j : Nat, j ≠ diff.toNat →
      (playSequence seq diff randPad).seq.getD j 0 = seq.getD j 0) ∧
    (playSequence seq diff randPad).playback.length = diff.toNat + 1 ∧
    (∀ i : Nat, i < diff.toNat + 1 →
      (playSequence seq diff randPad).playback.getD i (0, 0) =
        ((playSequence seq diff randPad).seq.getD i 0, getSpeed diff)) ∧
    (playSequence seq diff randPad).state = CHECSEQ ∧
    (playSequence seq diff randPad).diff = diff := by
  have hidx : diff.toNat < seq.length := by
    rw [hlen]; unfold MAX_SEQ_LENGTH at hcap; omega
  refine ⟨rfl, rfl, ?_, ?_, ?_, ?_, rfl, rfl⟩
  · show (seq.set diff.toNat randPad).getD diff.toNat 0 = randPad
    rw [List.getD_eq_getElem?_getD, List.getElem?_set_self (by simpa using hidx)]
    rfl
  · intro j hj
    show (seq.set diff.toNat randPad).getD j 0 = seq.getD j 0
    rw [List.getD_eq_getElem?_getD, List.getElem?_set_ne (fun h => hj h.symm),
      ← List.getD_eq_getElem?_getD]
  · show ((List.range (diff + 1).toNat).map _).length = diff.toNat + 1
    rw [List.length_map, List.length_range]
    omega
  · intro i hi
    show ((List.range (diff + 1).toNat).map
        (fun i => ((seq.set diff.toNat randPad).getD i 0, getSpeed diff))).getD i (0, 0) =
      ((seq.set diff.toNat randPad).getD i 0, getSpeed diff)
    rw [List.getD_eq_getElem?_getD, List.getElem?_map,
      List.getElem?_range (by omega)]
    rfl

/-- Witness for C5: the playback and store shape at difficulty 1 on a
length-64 array, drawing pad 4. -/
theorem playSequence_draws_stores_plays_witness :
    ((0 : Int) ≤ 1) ∧ ((1 : Int) < MAX_SEQ_LENGTH) ∧
    ((List.replicate 64 (0 : Int)).length = 64) ∧
    ((playSequence (List.replicate 64 0) 1 4).writeIndex = (1 : Int).toNat ∧
    (playSequence (List.replicate 64 0) 1 4).seq =
      (List.replicate 64 0).set (1 : Int).toNat 4 ∧
    (playSequence (List.replicate 64 0) 1 4).seq.getD (1 : Int).toNat 0 = 4 ∧
    (∀ j : Nat, j ≠ (1 : Int).toNat →
      (playSequence (List.replicate 64 0) 1 4).seq.getD j 0 =
        (List.replicate 64 (0 : Int)).getD j 0) ∧
    (playSequence (List.replicate 64 0) 1 4).playback.length = (1 : Int).toNat + 1 ∧
    (∀ i : Nat, i < (1 : Int).toNat + 1 →
      (playSequence (List.replicate 64 0) 1 4).playback.getD i (0, 0) =
        ((playSequence (List.replicate 64 0) 1 4).seq.getD i 0, getSpeed 1)) ∧
    (playSequence (List.replicate 64 0) 1 4).state = CHECSEQ ∧
    (playSequence (List.replicate 64 0) 1 4).diff = 1) :=
  ⟨by norm_num, by decide, by decide,
    playSequence_draws_stores_plays (List.replicate 64 0) 1 4
      (by norm_num) (by decide) (by decide)⟩

/-- C6: round-trip between generation and checking: starting from
difficulty 0, after `N = pads.length` consecutive fully-correct rounds
(each a `playSequence` drawing the next pad of `pads` followed by a
`checkSequence` in which the player reproduces the stored sequence), the
difficulty equals `N`, the machine is back in `PLAYSEQ`, and the first `N`
cells of the array equal, position by position and in order, the drawn
pads. -/
theorem round_trip_generation_check (pads : List Int) (hN : pads.length ≤ 64) :
    (playRounds { state := PLAYSEQ, seq := List.replicate 64 0, diff := 0 } pads).diff =
      (pads.length : Int) ∧
    (playRounds { state := PLAYSEQ, seq := List.replicate 64 0, diff := 0 } pads).seq.take
      pads.length = pads ∧
    (playRounds { state := PLAYSEQ, seq := List.replicate 64 0, diff := 0 } pads).state =
      PLAYSEQ ∧
    (∀ i : Nat, i < pads.length →
      (playRounds { state := PLAYSEQ, seq := List.replicate 64 0, diff := 0 } pads).seq.getD
        i 0 = pads.getD i 0) := by
  have h0 : ({ state := PLAYSEQ, seq := List.replicate 64 0, diff := 0 } : Game) =
      { state := PLAYSEQ, seq := List.replicate 64 0, diff := ((0 : Nat) : Int) } := rfl
  rw [h0, playRounds_closed pads (List.replicate 64 0) 0 (by simp) (by omega)]
  refine ⟨by dsimp only; omega, ?_, rfl, ?_⟩
  · dsimp only
    exact writeFrom_take pads (List.replicate 64 0) (by simp; omega)
  · intro i hi
    dsimp only
    rw [List.getD_eq_getElem?_getD, List.getD_eq_getElem?_getD,
      writeFrom_getElem?_mem pads (List.replicate 64 0) 0 i (by simp; omega)
        (Nat.zero_le i) (by omega), Nat.sub_zero]

/-- Witness for C6: two rounds drawing pads 3 then 1. -/
theorem round_trip_generation_check_witness :
    ([3, 1] : List Int).length ≤ 64 ∧
    ((playRounds { state := PLAYSEQ, seq := List.replicate 64 0, diff := 0 } [3, 1]).diff =
      (([3, 1] : List Int).length : Int) ∧
    (playRounds { state := PLAYSEQ, seq := List.replicate 64 0, diff := 0 } [3, 1]).seq.take
      ([3, 1] : List Int).length = [3, 1] ∧
    (playRounds { state := PLAYSEQ, seq := List.replicate 64 0, diff := 0 } [3, 1]).state =
      PLAYSEQ ∧
    (∀ i : Nat, i < ([3, 1] : List Int).length →
      (playRounds { state := PLAYSEQ, seq := List.replicate 64 0, diff := 0 } [3, 1]).seq.getD
        i 0 = ([3, 1] : List Int).getD i 0)) :=
  ⟨by decide, round_trip_generation_check [3, 1] (by decide)⟩

end Simon
